import Mathlib

/-!
Shallow embedding of the floor-plan batch analyzer.

Python floats are modelled as rationals (`ℚ`); the special IEEE values
(infinity, NaN) and exotic literal forms are outside the model.  Python
exceptions are modelled by the `PyErr` error type together with `Except`;
a `try/except (TypeError, ValueError)` block becomes an explicit match on
the error value.  Python dictionaries coming from the JSON inference
response are association lists of `PyVal` values.
-/

/-- The Python exception kinds that the analyzer's control flow distinguishes. -/
inductive PyErr where
  | typeError
  | valueError
  | validationError
  | cvError
  | ioError
deriving DecidableEq, Repr

/-- A dynamically typed Python value as it can appear in a prediction
dictionary parsed from JSON: a number, a string, `None`, or a list. -/
inductive PyVal where
  | num (q : ℚ)
  | str (s : String)
  | pyNone
  | listV (l : List PyVal)

/-- Digits to the natural number they denote, most significant first. -/
def digitsVal (l : List Char) : Nat :=
  l.foldl (fun a c => a * 10 + (c.toNat - 48)) 0

/-- Parses an unsigned plain decimal literal (`digits`, `digits.digits`,
`digits.`, `.digits`), the forms Python `float()` accepts for ordinary
decimal input.  Exponent forms, `inf`/`nan`, underscores and surrounding
whitespace are outside the model; on those the model, like Python on a
non-numeric string, reports failure. -/
def parseUnsignedFloat (l : List Char) : Option ℚ :=
  match l.span Char.isDigit with
  | (intPart, rest) =>
    match rest with
    | [] => if intPart.isEmpty then none else some (digitsVal intPart)
    | '.' :: fracPart =>
      if fracPart.all Char.isDigit && !(intPart.isEmpty && fracPart.isEmpty) then
        some ((digitsVal intPart : ℚ) + (digitsVal fracPart : ℚ) / (10 ^ fracPart.length))
      else none
    | _ => none

/-- Python `float(s)` on a string: optional sign followed by an unsigned
decimal literal. -/
def pyParseFloat (s : String) : Option ℚ :=
  match s.data with
  | '-' :: rest => (parseUnsignedFloat rest).map (fun q => -q)
  | '+' :: rest => parseUnsignedFloat rest
  | l => parseUnsignedFloat l

/-- Python `float(v)`: numbers pass through, strings are parsed
(`ValueError` on failure), `None` and lists raise `TypeError`. -/
def pyFloat : PyVal → Except PyErr ℚ
  | .num q => .ok q
  | .str s =>
    match pyParseFloat s with
    | some q => .ok q
    | none => .error .valueError
  | .pyNone => .error .typeError
  | .listV _ => .error .typeError

/-- The ASCII single-quote character, used by Python `repr` of strings. -/
def squote : Char := Char.ofNat 39

mutual

/-- Python `repr(v)`, as used for the elements when a list is rendered:
strings gain single quotes; numbers render via `toString` (the exact
numeric spelling is irrelevant to every claim, only that it never raises). -/
def pyReprOf : PyVal → String
  | .num q => toString q
  | .str s => String.singleton squote ++ s ++ String.singleton squote
  | .pyNone => "None"
  | .listV l => "[" ++ String.intercalate ", " (pyReprList l) ++ "]"

/-- `repr` of each element of a list of values. -/
def pyReprList : List PyVal → List String
  | [] => []
  | v :: rest => pyReprOf v :: pyReprList rest

end

/-- Python `str(v)`: identity on strings, `repr`-based rendering on lists. -/
def pyStrOf : PyVal → String
  | .num q => toString q
  | .str s => s
  | .pyNone => "None"
  | .listV l => pyReprOf (.listV l)

/-- Python `s.lower()` on the ASCII fragment (the core `Char.toLower`
lowers exactly the ASCII uppercase letters, as Python does on them). -/
def pyLower (s : String) : String :=
  ⟨s.data.map Char.toLower⟩

/-- Membership test behind Python `needle in hay` on strings:
`needle` occurs as a contiguous substring of `hay`. -/
def listContainsSub (needle : List Char) : List Char → Bool
  | [] => needle.isEmpty
  | c :: rest => needle.isPrefixOf (c :: rest) || listContainsSub needle rest

/-- Python `needle in hay` for strings. -/
def pyInStr (needle hay : String) : Bool :=
  listContainsSub needle.data hay.data

/-- Python `int(f)` on a float: truncation toward zero. -/
def pyInt (q : ℚ) : Int :=
  if 0 ≤ q then ⌊q⌋ else -⌊-q⌋

/-- A prediction dictionary: the keys and dynamically typed values of one
detection object from the inference response. -/
def Pred : Type := List (String × PyVal)

/-- Python `pred.get(key, default)`. -/
def dictGet (d : Pred) (k : String) (dflt : PyVal) : PyVal :=
  match d with
  | [] => dflt
  | (k₁, v) :: rest => if k₁ = k then v else dictGet rest k dflt

/-- `bbox_to_wall_line` from `src/processing/wall_extractor.py`: converts a
center/size box to wall geometry.  `int(...)` truncates toward zero and
Python `//` on ints is floor division (`Int.fdiv`). -/
def bbox_to_wall_line (x y width height : ℚ) : List (Int × Int) :=
  let x1 := pyInt (x - width / 2)
  let y1 := pyInt (y - height / 2)
  let x2 := pyInt (x + width / 2)
  let y2 := pyInt (y + height / 2)
  if width ≥ 2 * height then
    let y_mid := (y1 + y2).fdiv 2
    [(x1, y_mid), (x2, y_mid)]
  else if height ≥ 2 * width then
    let x_mid := (x1 + x2).fdiv 2
    [(x_mid, y1), (x_mid, y2)]
  else
    [(x1, y1), (x2, y1), (x2, y2), (x1, y2)]

/-- One emitted wall record (`{'id': ..., 'points': ..., 'confidence': ...}`). -/
structure Wall where
  id : String
  points : List (Int × Int)
  confidence : ℚ
deriving DecidableEq, Repr

/-- The body of the `for pred in predictions: try: ...` loop in
`extract_walls`, up to the `walls.append`: either an uncaught exception,
a skip (`continue` on the threshold or class test), or the point list and
confidence of a wall to emit. -/
def extractBody (pred : Pred) (thr : ℚ) : Except PyErr (Option (List (Int × Int) × ℚ)) :=
  match pyFloat (dictGet pred "confidence" (.num 0)) with
  | .error e => .error e
  | .ok confidence =>
    let class_name := pyLower (pyStrOf (dictGet pred "class" (.str "")))
    if confidence < thr then .ok none
    else if !(pyInStr "wall" class_name) then .ok none
    else
      match pyFloat (dictGet pred "x" (.num 0)) with
      | .error e => .error e
      | .ok x =>
        match pyFloat (dictGet pred "y" (.num 0)) with
        | .error e => .error e
        | .ok y =>
          match pyFloat (dictGet pred "width" (.num 0)) with
          | .error e => .error e
          | .ok width =>
            match pyFloat (dictGet pred "height" (.num 0)) with
            | .error e => .error e
            | .ok height =>
              .ok (some (bbox_to_wall_line x y width height, confidence))

/-- The loop of `extract_walls` with its `except (TypeError, ValueError)`
handler: those two exception kinds skip the prediction, any other
exception propagates out of the function.  `n` is the running `wall_id`. -/
def extractWallsEGo (thr : ℚ) : List Pred → Nat → Except PyErr (List Wall)
  | [], _ => .ok []
  | p :: ps, n =>
    match extractBody p thr with
    | .ok (some (pts, conf)) =>
      match extractWallsEGo thr ps (n + 1) with
      | .ok rest => .ok (⟨"w" ++ toString n, pts, conf⟩ :: rest)
      | .error e => .error e
    | .ok none => extractWallsEGo thr ps n
    | .error .typeError => extractWallsEGo thr ps n
    | .error .valueError => extractWallsEGo thr ps n
    | .error e => .error e

/-- `extract_walls(predictions, confidence_threshold)` with its exception
behaviour made explicit (`wall_id` starts at 1). -/
def extractWallsE (preds : List Pred) (thr : ℚ) : Except PyErr (List Wall) :=
  extractWallsEGo thr preds 1

/-- The same loop as a total function: every exception `extractBody` can
produce is a `TypeError` or `ValueError` and is caught, so the loop is
equivalent to skipping each failing prediction (proved below). -/
def extractWallsGo (thr : ℚ) : List Pred → Nat → List Wall
  | [], _ => []
  | p :: ps, n =>
    match extractBody p thr with
    | .ok (some (pts, conf)) => ⟨"w" ++ toString n, pts, conf⟩ :: extractWallsGo thr ps (n + 1)
    | .ok none => extractWallsGo thr ps n
    | .error _ => extractWallsGo thr ps n

/-- Total form of `extract_walls`. -/
def extract_walls (preds : List Pred) (thr : ℚ) : List Wall :=
  extractWallsGo thr preds 1

/-!
`src/utils/image_utils.py`.  A raster (`numpy` array as produced by
`cv2.imread`) is modelled by its pixel data: a 2-D array of scalars
(`len(shape) == 2`) or a 3-D array of channel lists with an explicit
channel count (`shape == (h, w, c)`).  Memory layout and aliasing are not
part of the model; `.copy()` and `cvtColor` both return a value.
-/

/-- An in-memory raster: 2-D grayscale data, or 3-D data with `c` channels. -/
inductive Img where
  | gray (g : List (List Int))
  | multi (c : Nat) (px : List (List (List Int)))
deriving DecidableEq, Repr

/-- Number of entries on the channel axis (1 for a plain 2-D raster). -/
def Img.channels : Img → Nat
  | .gray _ => 1
  | .multi c _ => c

/-- `cv2.cvtColor(img, cv2.COLOR_GRAY2BGR)`: replicate the single channel. -/
def cvtGray2BGR (g : List (List Int)) : Img :=
  .multi 3 (g.map (fun row => row.map (fun v => [v, v, v])))

/-- `cv2.cvtColor(img, cv2.COLOR_BGRA2BGR)`: drop the alpha channel. -/
def cvtBGRA2BGR (px : List (List (List Int))) : Img :=
  .multi 3 (px.map (fun row => row.map (fun p => p.take 3)))

/-- `ensure_color_image` from `src/utils/image_utils.py`: `None` raises
`ValueError`; a 2-D raster is converted with GRAY2BGR; a 3-D raster with
4 channels is converted with BGRA2BGR; any other raster is returned as a
copy (value-identical; the final branch is reached by every 3-D raster
whose channel count is not 4, not only by 3-channel ones). -/
def ensure_color_image : Option Img → Except PyErr Img
  | none => .error .valueError
  | some (.gray g) => .ok (cvtGray2BGR g)
  | some (.multi c px) =>
    if c = 4 then .ok (cvtBGRA2BGR px) else .ok (.multi c px)

/-- `get_image_dimensions`: `None` raises `ValueError`, otherwise the
first two axes of `shape`, i.e. `(height, width)`. -/
def get_image_dimensions : Option Img → Except PyErr (Nat × Nat)
  | none => .error .valueError
  | some (.gray g) => .ok (g.length, (g.headD []).length)
  | some (.multi _ px) => .ok (px.length, (px.headD []).length)

/-!
`src/utils/file_utils.py`, `get_image_files`.  The directory listing and
the two `os.path` probes are filesystem inputs, passed in explicitly.
-/

/-- Python `s.endswith(suffix)`. -/
def pyEndsWith (s suffix : String) : Bool :=
  suffix.data.isSuffixOf s.data

/-- `get_image_files(directory, extensions)`: on a missing path an empty
list (warning only); on a non-directory path a `ValueError`; otherwise
the entries of the listing whose lowercased name ends with one of the
extension entries (compared exactly as given), joined onto the directory. -/
def get_image_files (pathExists isDir : Bool) (directory : String)
    (listing : List String) (extensions : Option (List String)) :
    Except PyErr (List String) :=
  let exts := extensions.getD [".jpg", ".jpeg", ".png"]
  if !pathExists then .ok []
  else if !isDir then .error .valueError
  else .ok ((listing.filter
      (fun fname => exts.any (fun ext => pyEndsWith (pyLower fname) ext))).map
      (fun fname => directory ++ "/" ++ fname))

/-!
`src/models/schemas.py` and the JSON payload written by `main.py`.
Pydantic's v2 default configuration ignores extra keys (`extra='ignore'`):
validating a dict against `Metadata` keeps only the declared fields
`source` and `shape`.
-/

/-- A JSON value as it appears in the serialized result. -/
inductive JVal where
  | s (v : String)
  | i (v : Int)
  | f (v : ℚ)
  | arr (l : List JVal)
  | obj (l : List (String × JVal))

/-- The `Metadata` pydantic model: declared fields `source : str` and
`shape : List[int]` only (`src/models/schemas.py` lines 28-33). -/
structure Metadata where
  source : String
  shape : List Int

/-- Looks up a key in a JSON object (association list). -/
def jlookup (d : List (String × JVal)) (k : String) : Option JVal :=
  match d with
  | [] => none
  | (k₁, v) :: rest => if k₁ = k then some v else jlookup rest k

/-- Reads a JSON value as a list of ints (the `List[int]` field type). -/
def asIntList : JVal → Option (List Int)
  | .arr l => l.mapM (fun v => match v with | .i n => some n | _ => none)
  | _ => none

/-- Pydantic validation of a dict against `Metadata`: both declared fields
must be present with the right shape; every other key is ignored
(the default `extra='ignore'`), raising `ValidationError` otherwise. -/
def metadataValidate (d : List (String × JVal)) : Except PyErr Metadata :=
  match jlookup d "source", (jlookup d "shape").bind asIntList with
  | some (.s src), some shape => .ok ⟨src, shape⟩
  | _, _ => .error .validationError

/-- `Metadata.model_dump()`: exactly the declared fields. -/
def metadataDump (m : Metadata) : List (String × JVal) :=
  [("source", .s m.source), ("shape", .arr (m.shape.map .i))]

/-- `model_dump()` of one `Wall` record. -/
def wallDump (w : Wall) : List (String × JVal) :=
  [("id", .s w.id),
   ("points", .arr (w.points.map (fun p => .arr [.i p.1, .i p.2]))),
   ("confidence", .f w.confidence)]

/-- `FloorPlanResult.model_dump()`: the validated metadata and the walls. -/
def floorPlanResultDump (m : Metadata) (walls : List Wall) : List (String × JVal) :=
  [("meta", .obj (metadataDump m)),
   ("walls", .arr (walls.map (fun w => .obj (wallDump w))))]

/-!
`visualize_walls` and the orchestrator (`src/main.py`).  The stroke
drawing itself is `cv2.line`, an external OpenCV call whose success or
failure is an input of the model (`lineOk`); the rendered pixel content is
not tracked, no claim depends on it.  `cv2.line` runs only when some wall
supplies at least one consecutive point pair.
-/

/-- `visualize_walls(image, walls)`: raises `ValueError` on `None`, copies
the raster, then draws one stroke per consecutive point pair of each wall;
a failing `cv2.line` call (the `lineOk = false` oracle) raises out of the
function, which has no handler of its own. -/
def visualize_walls (image : Option Img) (walls : List Wall) (lineOk : Bool) :
    Except PyErr Img :=
  match image with
  | none => .error .valueError
  | some img =>
    if !lineOk && walls.any (fun w => 2 ≤ w.points.length) then .error .cvError
    else .ok img

/-- Observable filesystem writes of one image's processing. -/
inductive Effect where
  | wroteJson (path : String) (payload : List (String × JVal))
  | wroteDebug (path : String)

/-- The per-image environment: the file names, the outcome of the image
read, of the inference call, and of the three external effectful calls
(`cv2.line`, the JSON file write, `cv2.imwrite`).  `stem` is
`os.path.splitext(basename)[0]`, supplied by the caller. -/
structure ImgEnv where
  baseName : String
  stem : String
  readResult : Option Img
  inferResult : Except PyErr (List Pred)
  lineOk : Bool
  jsonWriteOk : Bool
  imwriteOk : Bool

/-- The `meta` dict literally built by `process_single_image`
(`src/main.py` lines 66-73): source filename, `[height, width]`, and the
configured model id. -/
def buildMetaDict (sourceName : String) (height width : Int) (modelId : String) :
    List (String × JVal) :=
  [("source", .s sourceName),
   ("shape", .arr [.i height, .i width]),
   ("model_id", .s modelId)]

/-- `process_single_image` from `src/main.py`: read (skip on failure),
ensure a 3-channel copy, take dimensions, infer (skip on any exception),
extract walls, render the overlay (no handler around `visualize_walls`),
build and validate the result record, write the JSON (`except IOError`
only logs), write the debug PNG (`except Exception` only logs).  The
returned list holds the writes that happened; `.error` is an exception
escaping the function. -/
def process_single_image (thr : ℚ) (modelId outputDir debugDir : String)
    (env : ImgEnv) : Except PyErr (List Effect) :=
  match env.readResult with
  | none => .ok []
  | some image =>
    match ensure_color_image (some image) with
    | .error e => .error e
    | .ok visualization_image =>
      match get_image_dimensions (some image) with
      | .error e => .error e
      | .ok (height, width) =>
        match env.inferResult with
        | .error _ => .ok []
        | .ok predictions =>
          let walls := extract_walls predictions thr
          match visualize_walls (some visualization_image) walls env.lineOk with
          | .error e => .error e
          | .ok _vis =>
            match metadataValidate
                (buildMetaDict env.baseName (height : Int) (width : Int) modelId) with
            | .error e => .error e
            | .ok meta =>
              let payload := floorPlanResultDump meta walls
              ((if env.jsonWriteOk then
                  [Effect.wroteJson (outputDir ++ "/" ++ env.stem ++ ".json") payload]
                else []) ++
               (if env.imwriteOk then
                  [Effect.wroteDebug (debugDir ++ "/" ++ env.stem ++ "_vis.png")]
                else [])) |> .ok

/-- The batch loop of `main()` (`src/main.py` lines 120-121): strictly
sequential, with no exception handler around `process_single_image`; the
first escaping exception ends the run, unprocessed images and all.
Returns the per-image effect lists of the completed images and the
escaped exception, if any. -/
def runBatch (thr : ℚ) (modelId outputDir debugDir : String) :
    List ImgEnv → List (List Effect) × Option PyErr
  | [] => ([], none)
  | env :: rest =>
    match process_single_image thr modelId outputDir debugDir env with
    | .error e => ([], some e)
    | .ok effs =>
      match runBatch thr modelId outputDir debugDir rest with
      | (more, err) => (effs :: more, err)

/-!
Helper lemmas about the extractor.
-/

/-- `pyFloat` only ever raises `TypeError` or `ValueError`. -/
theorem pyFloat_error_cases {v : PyVal} {e : PyErr} (h : pyFloat v = .error e) :
    e = .typeError ∨ e = .valueError := by
  cases v with
  | num q => simp [pyFloat] at h
  | str s =>
    cases hp : pyParseFloat s with
    | some q => simp [pyFloat, hp] at h
    | none =>
      simp only [pyFloat, hp, Except.error.injEq] at h
      exact Or.inr h.symm
  | pyNone =>
    simp only [pyFloat, Except.error.injEq] at h
    exact Or.inl h.symm
  | listV l =>
    simp only [pyFloat, Except.error.injEq] at h
    exact Or.inl h.symm

/-- Every exception the loop body of `extract_walls` can produce is a
`TypeError` or a `ValueError` (the kinds its handler catches). -/
theorem extractBody_error_cases {p : Pred} {thr : ℚ} {e : PyErr}
    (h : extractBody p thr = .error e) : e = .typeError ∨ e = .valueError := by
  unfold extractBody at h
  cases h₀ : pyFloat (dictGet p "confidence" (.num 0)) with
  | error e₀ =>
    rw [h₀] at h
    cases h
    exact pyFloat_error_cases h₀
  | ok c =>
    rw [h₀] at h
    dsimp only at h
    split at h
    · cases h
    split at h
    · cases h
    cases h₁ : pyFloat (dictGet p "x" (.num 0)) with
    | error e₁ =>
      rw [h₁] at h
      cases h
      exact pyFloat_error_cases h₁
    | ok x =>
      rw [h₁] at h
      cases h₂ : pyFloat (dictGet p "y" (.num 0)) with
      | error e₂ =>
        rw [h₂] at h
        cases h
        exact pyFloat_error_cases h₂
      | ok y =>
        rw [h₂] at h
        cases h₃ : pyFloat (dictGet p "width" (.num 0)) with
        | error e₃ =>
          rw [h₃] at h
          cases h
          exact pyFloat_error_cases h₃
        | ok w =>
          rw [h₃] at h
          cases h₄ : pyFloat (dictGet p "height" (.num 0)) with
          | error e₄ =>
            rw [h₄] at h
            cases h
            exact pyFloat_error_cases h₄
          | ok hgt =>
            rw [h₄] at h
            cases h

/-- The `Except` form of the loop never propagates an exception: it always
produces the walls of the total form. -/
theorem extractWallsEGo_eq_go (thr : ℚ) : ∀ (ps : List Pred) (n : Nat),
    extractWallsEGo thr ps n = .ok (extractWallsGo thr ps n) := by
  intro ps
  induction ps with
  | nil => intro n; rfl
  | cons p ps ih =>
    intro n
    unfold extractWallsEGo extractWallsGo
    cases hb : extractBody p thr with
    | ok o =>
      cases o with
      | some pc =>
        obtain ⟨pts, conf⟩ := pc
        simp [ih]
      | none => simpa using ih n
    | error e =>
      rcases extractBody_error_cases hb with he | he <;> subst he <;> simpa using ih n

/-- A prediction on which the loop body raises contributes nothing: the
walls are those of the list without it. -/
theorem extractWallsGo_skip (thr : ℚ) {p : Pred} {e : PyErr}
    (hp : extractBody p thr = .error e) :
    ∀ (l₁ l₂ : List Pred) (n : Nat),
      extractWallsGo thr (l₁ ++ p :: l₂) n = extractWallsGo thr (l₁ ++ l₂) n := by
  intro l₁
  induction l₁ with
  | nil =>
    intro l₂ n
    simp only [List.nil_append, extractWallsGo, hp]
  | cons q l₁ ih =>
    intro l₂ n
    simp only [List.cons_append]
    unfold extractWallsGo
    cases hq : extractBody q thr with
    | ok o =>
      cases o with
      | some pc =>
        obtain ⟨pts, conf⟩ := pc
        simp [ih]
      | none => simpa using ih l₂ n
    | error e₂ => simpa using ih l₂ n

/-- A skipped-by-`continue` prediction likewise contributes nothing. -/
theorem extractWallsGo_skip_none (thr : ℚ) {p : Pred}
    (hp : extractBody p thr = .ok none) :
    ∀ (l₁ l₂ : List Pred) (n : Nat),
      extractWallsGo thr (l₁ ++ p :: l₂) n = extractWallsGo thr (l₁ ++ l₂) n := by
  intro l₁
  induction l₁ with
  | nil =>
    intro l₂ n
    simp only [List.nil_append, extractWallsGo, hp]
  | cons q l₁ ih =>
    intro l₂ n
    simp only [List.cons_append]
    unfold extractWallsGo
    cases hq : extractBody q thr with
    | ok o =>
      cases o with
      | some pc =>
        obtain ⟨pts, conf⟩ := pc
        simp [ih]
      | none => simpa using ih l₂ n
    | error e₂ => simpa using ih l₂ n

/-- A wall is emitted only with its parsed confidence at or above the
threshold. -/
theorem extractBody_emit {p : Pred} {thr : ℚ} {pts : List (Int × Int)} {conf : ℚ}
    (h : extractBody p thr = .ok (some (pts, conf))) :
    thr ≤ conf ∧ pyFloat (dictGet p "confidence" (.num 0)) = .ok conf := by
  unfold extractBody at h
  cases h₀ : pyFloat (dictGet p "confidence" (.num 0)) with
  | error e₀ => rw [h₀] at h; cases h
  | ok c =>
    rw [h₀] at h
    dsimp only at h
    split at h
    · cases h
    next hlt =>
      split at h
      · cases h
      cases h₁ : pyFloat (dictGet p "x" (.num 0)) with
      | error e₁ => rw [h₁] at h; cases h
      | ok x =>
        rw [h₁] at h
        cases h₂ : pyFloat (dictGet p "y" (.num 0)) with
        | error e₂ => rw [h₂] at h; cases h
        | ok y =>
          rw [h₂] at h
          cases h₃ : pyFloat (dictGet p "width" (.num 0)) with
          | error e₃ => rw [h₃] at h; cases h
          | ok w =>
            rw [h₃] at h
            cases h₄ : pyFloat (dictGet p "height" (.num 0)) with
            | error e₄ => rw [h₄] at h; cases h
            | ok hgt =>
              rw [h₄] at h
              simp only [Except.ok.injEq, Option.some.injEq, Prod.mk.injEq] at h
              obtain ⟨hpts, hconf⟩ := h
              subst hconf
              exact ⟨not_lt.mp hlt, rfl⟩

/-- Every emitted wall carries a confidence at or above the threshold. -/
theorem extractWallsGo_conf (thr : ℚ) : ∀ (ps : List Pred) (n : Nat) (w : Wall),
    w ∈ extractWallsGo thr ps n → thr ≤ w.confidence := by
  intro ps
  induction ps with
  | nil => intro n w hw; cases hw
  | cons p ps ih =>
    intro n w hw
    unfold extractWallsGo at hw
    cases hb : extractBody p thr with
    | error e => rw [hb] at hw; exact ih n w hw
    | ok o =>
      cases o with
      | none => rw [hb] at hw; exact ih n w hw
      | some pc =>
        obtain ⟨pts, conf⟩ := pc
        rw [hb] at hw
        rcases List.mem_cons.mp hw with h | h
        · subst h; exact (extractBody_emit hb).1
        · exact ih (n + 1) w h

/-- Floor division by 2 as Euclidean division (for `norm_num` and `omega`). -/
theorem fdiv_two_eq (a : Int) : a.fdiv 2 = a / 2 :=
  Int.fdiv_eq_ediv a (by norm_num)

/-- On a zero-size box the heuristic takes the horizontal branch and the
two endpoints coincide at the truncated center. -/
theorem bbox_zero_box (x y : ℚ) :
    bbox_to_wall_line x y 0 0 = [(pyInt x, pyInt y), (pyInt x, pyInt y)] := by
  unfold bbox_to_wall_line
  rw [if_pos (by norm_num)]
  have hmid : (pyInt (y - 0 / 2) + pyInt (y + 0 / 2)).fdiv 2 = pyInt y := by
    rw [fdiv_two_eq]
    norm_num
    omega
  rw [hmid]
  norm_num

/-- The heuristic returns two points on either linear branch and four on
the rectangle branch, never anything else. -/
theorem bbox_length (x y w h : ℚ) :
    (bbox_to_wall_line x y w h).length = 2 ∨ (bbox_to_wall_line x y w h).length = 4 := by
  unfold bbox_to_wall_line
  split
  · exact Or.inl rfl
  split
  · exact Or.inl rfl
  · exact Or.inr rfl

/-- The box-to-line heuristic as Claim C5 words it: corners truncated
toward zero, a horizontal midpoint segment when `width ≥ 2 × height`, a
vertical one when `height ≥ 2 × width`, else the 4-point rectangle. -/
def bboxToWallLineSpec (x y width height : ℚ) : List (Int × Int) :=
  let x1 := pyInt (x - width / 2)
  let y1 := pyInt (y - height / 2)
  let x2 := pyInt (x + width / 2)
  let y2 := pyInt (y + height / 2)
  if 2 * height ≤ width then
    [(x1, (y1 + y2).fdiv 2), (x2, (y1 + y2).fdiv 2)]
  else if 2 * width ≤ height then
    [((x1 + x2).fdiv 2, y1), ((x1 + x2).fdiv 2, y2)]
  else
    [(x1, y1), (x2, y1), (x2, y2), (x1, y2)]

/-- Claim C5: the heuristic computes the truncated corners and picks the
horizontal segment, vertical segment, or 4-point rectangle by the 2x
ratio rule, matching the three worked examples of the claim. -/
theorem c5_box_to_line_heuristic (x y w h : ℚ) :
    bbox_to_wall_line x y w h = bboxToWallLineSpec x y w h ∧
    bbox_to_wall_line 50 50 100 10 = [(0, 50), (100, 50)] ∧
    bbox_to_wall_line 50 50 10 100 = [(50, 0), (50, 100)] ∧
    bbox_to_wall_line 50 50 20 20 = [(40, 40), (60, 40), (60, 60), (40, 60)] := by
  refine ⟨rfl, ?_, ?_, ?_⟩
  · norm_num [bbox_to_wall_line, pyInt, fdiv_two_eq]
  · norm_num [bbox_to_wall_line, pyInt, fdiv_two_eq]
  · norm_num [bbox_to_wall_line, pyInt, fdiv_two_eq]

/-- Claim C9: a zero-size box satisfies the horizontal condition and
degenerates to a 2-point segment with both endpoints at the truncated
center, and every result of the heuristic has exactly 2 or 4 points. -/
theorem c9_degenerate_box :
    (∀ x y : ℚ, bbox_to_wall_line x y 0 0 = [(pyInt x, pyInt y), (pyInt x, pyInt y)]) ∧
    (∀ x y w h : ℚ,
      (bbox_to_wall_line x y w h).length = 2 ∨ (bbox_to_wall_line x y w h).length = 4) :=
  ⟨bbox_zero_box, bbox_length⟩

/-- The ids produced from counter value `n` are `w n, w (n+1), ...` in
order. -/
theorem extractWallsGo_ids (thr : ℚ) : ∀ (ps : List Pred) (n : Nat),
    (extractWallsGo thr ps n).map Wall.id =
      (List.range (extractWallsGo thr ps n).length).map (fun i => "w" ++ toString (n + i)) := by
  intro ps
  induction ps with
  | nil => intro n; rfl
  | cons p ps ih =>
    intro n
    unfold extractWallsGo
    cases hb : extractBody p thr with
    | error e => exact ih n
    | ok o =>
      cases o with
      | none => exact ih n
      | some pc =>
        obtain ⟨pts, conf⟩ := pc
        simp only [List.map_cons, List.length_cons, ih (n + 1),
          List.range_succ_eq_map, List.map_map]
        refine List.cons_eq_cons.mpr ⟨by simp, ?_⟩
        apply List.map_congr_left
        intro i _
        simp only [Function.comp_apply]
        congr 2
        omega

/-- Claim C7: the ids of the returned walls are exactly w1, w2, ..., wK in
output order with no gaps, where K is the number of emitted walls;
numbering is unaffected by skipped predictions. -/
theorem c7_sequential_wall_ids (preds : List Pred) (thr : ℚ) :
    (extract_walls preds thr).map Wall.id =
      (List.range (extract_walls preds thr).length).map (fun i => "w" ++ toString (i + 1)) := by
  rw [extract_walls, extractWallsGo_ids thr preds 1]
  apply List.map_congr_left
  intro i _
  congr 2
  omega

/-- If the confidence coercion raises, the whole loop body raises that
same exception (it is the first statement of the `try` block). -/
theorem extractBody_error_of_conf {p : Pred} {thr : ℚ} {e : PyErr}
    (hc : pyFloat (dictGet p "confidence" (.num 0)) = .error e) :
    extractBody p thr = .error e := by
  unfold extractBody
  rw [hc]

/-- A single emitted prediction yields the one wall with id w1. -/
theorem extract_walls_single_emit {p : Pred} {thr : ℚ} {pts : List (Int × Int)} {conf : ℚ}
    (hb : extractBody p thr = .ok (some (pts, conf))) :
    extract_walls [p] thr = [⟨"w1", pts, conf⟩] := by
  simp only [extract_walls, extractWallsGo, hb]
  rw [show ("w" ++ toString 1 : String) = "w1" from by decide]

/-- A prediction carrying only the class wall: every numeric field
defaults to 0, and with a nonpositive threshold it is emitted. -/
theorem extractBody_wall_defaults {thr : ℚ} (hthr : thr ≤ 0) :
    extractBody [("class", PyVal.str "wall")] thr
      = .ok (some (bbox_to_wall_line 0 0 0 0, 0)) := by
  have hconf : dictGet [("class", PyVal.str "wall")] "confidence" (.num 0) = .num 0 := by
    simp [dictGet]
  have hcl : dictGet [("class", PyVal.str "wall")] "class" (.str "") = .str "wall" := by
    simp [dictGet]
  have hx : dictGet [("class", PyVal.str "wall")] "x" (.num 0) = .num 0 := by simp [dictGet]
  have hy : dictGet [("class", PyVal.str "wall")] "y" (.num 0) = .num 0 := by simp [dictGet]
  have hw : dictGet [("class", PyVal.str "wall")] "width" (.num 0) = .num 0 := by simp [dictGet]
  have hh : dictGet [("class", PyVal.str "wall")] "height" (.num 0) = .num 0 := by
    simp [dictGet]
  unfold extractBody
  rw [hconf, hcl, hx, hy, hw, hh]
  dsimp only [pyFloat]
  rw [if_neg (not_lt.mpr hthr)]
  rw [if_neg (show ¬((!pyInStr "wall" (pyLower (pyStrOf (PyVal.str "wall")))) = true) from
    by decide)]

/-- Claim C3 counterexample: with threshold 0.0 a wall prediction whose
confidence is the string n/a is NOT emitted with confidence 0.0 --- the
ValueError raised by float() is caught by the loop handler and the whole
prediction is skipped, leaving no wall at all. -/
theorem c3_counterexample_conversion_failure_skips :
    extract_walls [[("class", PyVal.str "wall"), ("confidence", PyVal.str "n/a")]] 0 = [] := by
  decide

/-- Claim C3 (amended): a prediction whose confidence field is absent is
treated as confidence 0.0 and, with threshold 0.0, an otherwise-valid
wall prediction is emitted with confidence 0.0; but a prediction whose
confidence value fails float conversion is skipped entirely rather than
treated as 0.0. -/
theorem c3_absent_defaults_conversion_failure_skips
    (p : Pred) (thr : ℚ) (e : PyErr) (l₁ l₂ : List Pred)
    (hc : pyFloat (dictGet p "confidence" (.num 0)) = .error e) :
    extract_walls (l₁ ++ p :: l₂) thr = extract_walls (l₁ ++ l₂) thr ∧
    extract_walls [[("class", PyVal.str "wall")]] 0
      = [⟨"w1", [(0, 0), (0, 0)], 0⟩] := by
  constructor
  · exact extractWallsGo_skip thr (extractBody_error_of_conf hc) l₁ l₂ 1
  · rw [extract_walls_single_emit (extractBody_wall_defaults le_rfl)]
    have hb : bbox_to_wall_line 0 0 0 0 = [(0, 0), (0, 0)] := by
      rw [bbox_zero_box]
      norm_num [pyInt]
    rw [hb]

/-- Witness for the amended Claim C3 at a concrete malformed prediction. -/
theorem c3_absent_defaults_conversion_failure_skips_witness :
    extract_walls ([] ++ [("confidence", PyVal.str "n/a")] :: []) 0
        = extract_walls ([] ++ []) 0 ∧
    extract_walls [[("class", PyVal.str "wall")]] 0
      = [⟨"w1", [(0, 0), (0, 0)], 0⟩] :=
  c3_absent_defaults_conversion_failure_skips
    [("confidence", PyVal.str "n/a")] 0 .valueError [] []
    (by simp [dictGet, pyFloat, show pyParseFloat "n/a" = none from by decide])

/-- Claim C4: extract_walls raises no exception for any prediction list
and threshold (the Except form always returns ok with the walls of the
total form), and a prediction whose loop body raises contributes nothing
while the remaining predictions' walls are preserved. -/
theorem c4_extract_walls_never_raises (preds : List Pred) (thr : ℚ) :
    extractWallsE preds thr = .ok (extract_walls preds thr) ∧
    (∀ (l₁ l₂ : List Pred) (p : Pred) (e : PyErr),
        preds = l₁ ++ p :: l₂ → extractBody p thr = .error e →
        extract_walls preds thr = extract_walls (l₁ ++ l₂) thr) := by
  refine ⟨extractWallsEGo_eq_go thr preds 1, ?_⟩
  intro l₁ l₂ p e hpred hp
  subst hpred
  exact extractWallsGo_skip thr hp l₁ l₂ 1

/-- Witness for Claim C4 on a concrete batch with one malformed and one
valid prediction. -/
theorem c4_extract_walls_never_raises_witness :
    extractWallsE [[("confidence", PyVal.str "n/a")], [("class", PyVal.str "wall")]] 0
        = .ok (extract_walls [[("confidence", PyVal.str "n/a")], [("class", PyVal.str "wall")]] 0) ∧
    extract_walls [[("confidence", PyVal.str "n/a")], [("class", PyVal.str "wall")]] 0
        = extract_walls ([] ++ [[("class", PyVal.str "wall")]]) 0 := by
  have h := c4_extract_walls_never_raises
    [[("confidence", PyVal.str "n/a")], [("class", PyVal.str "wall")]] 0
  exact ⟨h.1, h.2 [] [[("class", PyVal.str "wall")]] [("confidence", PyVal.str "n/a")]
    .valueError rfl
    (extractBody_error_of_conf
      (by simp [dictGet, pyFloat, show pyParseFloat "n/a" = none from by decide]))⟩

/-- Claim C6: every emitted wall's confidence is at or above the
threshold (so no wall is emitted for a prediction strictly below it), and
an otherwise-valid wall prediction whose confidence equals the threshold
exactly is emitted --- the boundary is inclusive. -/
theorem c6_threshold_boundary_inclusive (preds : List Pred) (thr : ℚ) (p : Pred)
    (x y w h : ℚ)
    (hc : pyFloat (dictGet p "confidence" (.num 0)) = .ok thr)
    (hcl : pyInStr "wall" (pyLower (pyStrOf (dictGet p "class" (.str "")))) = true)
    (hx : pyFloat (dictGet p "x" (.num 0)) = .ok x)
    (hy : pyFloat (dictGet p "y" (.num 0)) = .ok y)
    (hw : pyFloat (dictGet p "width" (.num 0)) = .ok w)
    (hh : pyFloat (dictGet p "height" (.num 0)) = .ok h) :
    (∀ wall ∈ extract_walls preds thr, thr ≤ wall.confidence) ∧
    extract_walls [p] thr = [⟨"w1", bbox_to_wall_line x y w h, thr⟩] := by
  constructor
  · exact fun wall hmem => extractWallsGo_conf thr preds 1 wall hmem
  · apply extract_walls_single_emit
    unfold extractBody
    rw [hc]
    dsimp only
    rw [if_neg (lt_irrefl thr)]
    rw [if_neg (show
      ¬((!pyInStr "wall" (pyLower (pyStrOf (dictGet p "class" (.str ""))))) = true)
      from by simp [hcl])]
    rw [hx, hy, hw, hh]

/-- Witness for Claim C6 at a concrete prediction whose confidence equals
the threshold 1 exactly. -/
theorem c6_threshold_boundary_inclusive_witness :
    (∀ wall ∈ extract_walls [[("class", PyVal.str "wall"), ("confidence", PyVal.num 1)]] 1,
        (1 : ℚ) ≤ wall.confidence) ∧
    extract_walls [[("class", PyVal.str "wall"), ("confidence", PyVal.num 1)]] 1
      = [⟨"w1", bbox_to_wall_line 0 0 0 0, 1⟩] :=
  c6_threshold_boundary_inclusive
    [[("class", PyVal.str "wall"), ("confidence", PyVal.num 1)]] 1
    [("class", PyVal.str "wall"), ("confidence", PyVal.num 1)] 0 0 0 0
    (by simp [dictGet, pyFloat]) (by decide)
    (by simp [dictGet, pyFloat]) (by simp [dictGet, pyFloat])
    (by simp [dictGet, pyFloat]) (by simp [dictGet, pyFloat])

/-- Claim C8 counterexample: a 2-channel raster falls through every
conversion branch of ensure_color_image and is returned with its 2
channels intact, so the operation does not return a 3-channel raster for
every non-absent input. -/
theorem c8_counterexample_two_channel_raster :
    ensure_color_image (some (.multi 2 [[[1, 2]]])) = .ok (.multi 2 [[[1, 2]]]) ∧
    (Img.multi 2 [[[1, 2]]]).channels ≠ 3 :=
  ⟨rfl, by decide⟩

/-- Claim C8 (amended): a 2-D raster is replicated onto 3 channels, a
4-channel raster has its alpha dropped, a 3-channel raster is returned as
a value-equal copy, an absent raster raises ValueError, and every 3-D
raster whose channel count is not 4 (2-channel ones included) is returned
unchanged --- only those classes of input are guaranteed 3-channel
output. -/
theorem c8_ensure_color_image_channels (g : List (List Int))
    (px : List (List (List Int))) (c : Nat) (hc : c ≠ 4) :
    ensure_color_image (some (.gray g))
        = .ok (.multi 3 (g.map (fun row => row.map (fun v => [v, v, v])))) ∧
    ensure_color_image (some (.multi 4 px))
        = .ok (.multi 3 (px.map (fun row => row.map (fun pix => pix.take 3)))) ∧
    ensure_color_image (some (.multi 3 px)) = .ok (.multi 3 px) ∧
    ensure_color_image none = .error .valueError ∧
    ensure_color_image (some (.multi c px)) = .ok (.multi c px) := by
  refine ⟨rfl, rfl, rfl, rfl, ?_⟩
  simp only [ensure_color_image]
  rw [if_neg hc]

/-- Witness for the amended Claim C8 on concrete rasters. -/
theorem c8_ensure_color_image_channels_witness :
    ensure_color_image (some (.gray [[5]])) = .ok (.multi 3 [[[5, 5, 5]]]) ∧
    ensure_color_image (some (.multi 4 [[[1, 2]]])) = .ok (.multi 3 [[[1, 2]]]) ∧
    ensure_color_image (some (.multi 3 [[[1, 2]]])) = .ok (.multi 3 [[[1, 2]]]) ∧
    ensure_color_image none = .error .valueError ∧
    ensure_color_image (some (.multi 2 [[[1, 2]]])) = .ok (.multi 2 [[[1, 2]]]) := by
  have h := c8_ensure_color_image_channels [[5]] [[[1, 2]]] 2 (by decide)
  simpa using h

/-- Lowercasing a character never yields an ASCII uppercase letter. -/
theorem toLower_not_upper (c : Char) : (Char.toLower c).isUpper = false := by
  have key : ∀ x : Char, x.isUpper = (decide (65 ≤ x.toNat) && decide (x.toNat ≤ 90)) :=
    fun _ => rfl
  unfold Char.toLower
  dsimp only
  split
  next h =>
    have hval : (Char.ofNat (c.toNat + 32)).toNat = c.toNat + 32 := by
      unfold Char.ofNat
      rw [dif_pos (Or.inl (by omega))]
      rfl
    rw [key]
    simp only [Bool.and_eq_false_iff, decide_eq_false_iff_not]
    right
    rw [hval]
    omega
  next h =>
    rw [key]
    simp only [Bool.and_eq_false_iff, decide_eq_false_iff_not]
    omega

/-- No character of a lowercased string is an ASCII uppercase letter. -/
theorem pyLower_no_upper {f : String} {c : Char} (hc : c ∈ (pyLower f).data) :
    c.isUpper = false := by
  have hc₂ : c ∈ f.data.map Char.toLower := hc
  rcases List.mem_map.mp hc₂ with ⟨d, _, hd⟩
  rw [← hd]
  exact toLower_not_upper d

/-- A suffix containing an ASCII uppercase letter never matches a
lowercased filename. -/
theorem pyEndsWith_upper_false (f ext : String) (c : Char)
    (hc : c ∈ ext.data) (hcup : c.isUpper = true) :
    pyEndsWith (pyLower f) ext = false := by
  cases hb : pyEndsWith (pyLower f) ext
  · rfl
  · exfalso
    have hsuf : ext.data <:+ (pyLower f).data :=
      List.isSuffixOf_iff_suffix.mp hb
    have hmem : c ∈ (pyLower f).data := hsuf.subset hc
    rw [pyLower_no_upper hmem] at hcup
    cases hcup

/-- Claim C10: filenames are lowercased before the endswith comparison
but the allow-list entries are not, so an explicitly supplied extension
list whose entries each contain an ASCII uppercase letter (such as .JPG)
matches no file in any directory. -/
theorem c10_uppercase_extension_matches_nothing (directory : String)
    (listing : List String) (exts : List String)
    (hup : ∀ ext ∈ exts, ∃ c ∈ ext.data, c.isUpper = true) :
    get_image_files true true directory listing (some exts) = .ok [] := by
  unfold get_image_files
  simp only [Option.getD_some, Bool.not_true, Bool.false_eq_true, if_false, ite_false]
  have hfilter :
      listing.filter (fun fname => exts.any (fun ext => pyEndsWith (pyLower fname) ext)) = [] := by
    rw [List.filter_eq_nil_iff]
    intro fname _
    intro hany
    rcases List.any_eq_true.mp hany with ⟨ext, hmem, hends⟩
    rcases hup ext hmem with ⟨c, hc, hcup⟩
    rw [pyEndsWith_upper_false fname ext c hc hcup] at hends
    cases hends
  rw [hfilter]
  rfl

/-- Witness for Claim C10 on a concrete directory listing. -/
theorem c10_uppercase_extension_matches_nothing_witness :
    get_image_files true true "imgs" ["photo.JPG", "floor.jpg"] (some [".JPG"]) = .ok [] :=
  c10_uppercase_extension_matches_nothing "imgs" ["photo.JPG", "floor.jpg"] [".JPG"]
    (by decide)

/-- Validating the orchestrator's meta dict always succeeds, keeping only
the two declared fields. -/
theorem metadataValidate_buildMeta (src : String) (h w : Int) (modelId : String) :
    metadataValidate (buildMetaDict src h w modelId) = .ok ⟨src, [h, w]⟩ := rfl

/-- Claim C1 (what the code actually does): the orchestrator's meta dict
does carry a model_id entry, but pydantic validation against Metadata
keeps only source and shape, so the serialized meta of every written
result has no model_id key. -/
theorem c1_meta_model_id_dropped (src : String) (h w : Int) (modelId : String) :
    jlookup (buildMetaDict src h w modelId) "model_id" = some (.s modelId) ∧
    metadataValidate (buildMetaDict src h w modelId) = .ok ⟨src, [h, w]⟩ ∧
    "model_id" ∉ (metadataDump ⟨src, [h, w]⟩).map Prod.fst := by
  refine ⟨rfl, metadataValidate_buildMeta src h w modelId, ?_⟩
  simp [metadataDump]

/-- The single-prediction batch that Claims C2 and C3 evaluate: a wall
prediction with every other field defaulted, at threshold 0. -/
theorem extract_walls_wall_defaults :
    extract_walls [[("class", PyVal.str "wall")]] 0 = [⟨"w1", [(0, 0), (0, 0)], 0⟩] := by
  rw [extract_walls_single_emit (extractBody_wall_defaults le_rfl)]
  have hb : bbox_to_wall_line 0 0 0 0 = [(0, 0), (0, 0)] := by
    rw [bbox_zero_box]
    norm_num [pyInt]
  rw [hb]

/-- An emitted point list always comes from the heuristic, so it has 2 or
4 points. -/
theorem extractBody_emit_points {p : Pred} {thr : ℚ} {pts : List (Int × Int)} {conf : ℚ}
    (h : extractBody p thr = .ok (some (pts, conf))) :
    pts.length = 2 ∨ pts.length = 4 := by
  unfold extractBody at h
  cases h₀ : pyFloat (dictGet p "confidence" (.num 0)) with
  | error e₀ => rw [h₀] at h; cases h
  | ok c =>
    rw [h₀] at h
    dsimp only at h
    split at h
    · cases h
    split at h
    · cases h
    cases h₁ : pyFloat (dictGet p "x" (.num 0)) with
    | error e₁ => rw [h₁] at h; cases h
    | ok x =>
      rw [h₁] at h
      cases h₂ : pyFloat (dictGet p "y" (.num 0)) with
      | error e₂ => rw [h₂] at h; cases h
      | ok y =>
        rw [h₂] at h
        cases h₃ : pyFloat (dictGet p "width" (.num 0)) with
        | error e₃ => rw [h₃] at h; cases h
        | ok w =>
          rw [h₃] at h
          cases h₄ : pyFloat (dictGet p "height" (.num 0)) with
          | error e₄ => rw [h₄] at h; cases h
          | ok hgt =>
            rw [h₄] at h
            simp only [Except.ok.injEq, Option.some.injEq, Prod.mk.injEq] at h
            rw [← h.1]
            exact bbox_length x y w hgt

/-- Every wall the extractor emits has 2 or 4 points. -/
theorem extractWallsGo_points (thr : ℚ) : ∀ (ps : List Pred) (n : Nat) (w : Wall),
    w ∈ extractWallsGo thr ps n → w.points.length = 2 ∨ w.points.length = 4 := by
  intro ps
  induction ps with
  | nil => intro n w hw; cases hw
  | cons p ps ih =>
    intro n w hw
    unfold extractWallsGo at hw
    cases hb : extractBody p thr with
    | error e => rw [hb] at hw; exact ih n w hw
    | ok o =>
      cases o with
      | none => rw [hb] at hw; exact ih n w hw
      | some pc =>
        obtain ⟨pts, conf⟩ := pc
        rw [hb] at hw
        rcases List.mem_cons.mp hw with h | h
        · subst h; exact extractBody_emit_points hb
        · exact ih (n + 1) w h

/-- `ensure_color_image` never fails on a present raster. -/
theorem ensure_color_image_some (img : Img) :
    ∃ img₂, ensure_color_image (some img) = .ok img₂ := by
  cases img with
  | gray g => exact ⟨_, rfl⟩
  | multi c px =>
    simp only [ensure_color_image]
    by_cases hc : c = 4
    · rw [if_pos hc]; exact ⟨_, rfl⟩
    · rw [if_neg hc]; exact ⟨_, rfl⟩

/-- `get_image_dimensions` never fails on a present raster. -/
theorem get_image_dimensions_some (img : Img) :
    ∃ hw, get_image_dimensions (some img) = .ok hw := by
  cases img with
  | gray g => exact ⟨_, rfl⟩
  | multi c px => exact ⟨_, rfl⟩

/-- With a failing `cv2.line` and at least one emitted wall, rendering
raises. -/
theorem visualize_walls_fails {walls : List Wall} (img : Img)
    (hne : walls ≠ []) (hlen : ∀ w ∈ walls, w.points.length = 2 ∨ w.points.length = 4) :
    visualize_walls (some img) walls false = .error .cvError := by
  simp only [visualize_walls]
  rw [if_pos]
  cases walls with
  | nil => exact absurd rfl hne
  | cons w ws =>
    have h2 : 2 ≤ w.points.length := by
      rcases hlen w (List.mem_cons_self w ws) with h | h <;> omega
    simp only [Bool.not_false, Bool.true_and, List.any_eq_true]
    exact ⟨w, List.mem_cons_self w ws, by simpa using h2⟩

/-- A read and inference success followed by a failing `cv2.line` makes
`process_single_image` raise: nothing guards `visualize_walls`, so the
JSON write after it is never reached. -/
theorem process_single_image_render_fail (thr : ℚ) (modelId outputDir debugDir : String)
    (env : ImgEnv) (img : Img) (preds : List Pred)
    (hread : env.readResult = some img) (hinf : env.inferResult = .ok preds)
    (hline : env.lineOk = false) (hwalls : extract_walls preds thr ≠ []) :
    process_single_image thr modelId outputDir debugDir env = .error .cvError := by
  unfold process_single_image
  rw [hread]
  dsimp only
  obtain ⟨img₂, h₂⟩ := ensure_color_image_some img
  rw [h₂]
  obtain ⟨⟨height, width⟩, h₃⟩ := get_image_dimensions_some img
  rw [h₃]
  rw [hinf]
  dsimp only
  rw [hline]
  rw [visualize_walls_fails img₂ hwalls
    (fun w hw₂ => extractWallsGo_points thr preds 1 w hw₂)]

/-- When `cv2.line` succeeds, `process_single_image` never raises: a read
or inference failure skips the image, and the two write failures are
caught. -/
theorem process_single_image_render_ok (thr : ℚ) (modelId outputDir debugDir : String)
    (env : ImgEnv) (hline : env.lineOk = true) :
    ∃ effs, process_single_image thr modelId outputDir debugDir env = .ok effs := by
  unfold process_single_image
  cases henv : env.readResult with
  | none => exact ⟨[], rfl⟩
  | some img =>
    dsimp only
    obtain ⟨img₂, h₂⟩ := ensure_color_image_some img
    rw [h₂]
    obtain ⟨⟨height, width⟩, h₃⟩ := get_image_dimensions_some img
    rw [h₃]
    cases hinf : env.inferResult with
    | error e => exact ⟨[], rfl⟩
    | ok preds =>
      dsimp only
      rw [hline]
      rw [show visualize_walls (some img₂) (extract_walls preds thr) true = .ok img₂ from
        by simp [visualize_walls]]
      rw [metadataValidate_buildMeta]
      exact ⟨_, rfl⟩

/-- Claim C2 counterexample: in a two-image batch whose first image
renders with a failing `cv2.line`, no JSON at all is written (the effect
list is empty) and the second image is never processed --- the exception
escapes `process_single_image` and ends the batch loop. -/
theorem c2_counterexample_render_failure_ends_batch :
    runBatch 0 "m" "out" "out/debug"
      [⟨"a.png", "a", some (.gray [[0]]), .ok [[("class", PyVal.str "wall")]], false, true, true⟩,
       ⟨"b.png", "b", some (.gray [[0]]), .ok [], true, true, true⟩]
      = ([], some .cvError) := by
  have hp := process_single_image_render_fail 0 "m" "out" "out/debug"
    ⟨"a.png", "a", some (.gray [[0]]), .ok [[("class", PyVal.str "wall")]], false, true, true⟩
    (.gray [[0]]) [[("class", PyVal.str "wall")]] rfl rfl rfl
    (by rw [extract_walls_wall_defaults]; simp)
  unfold runBatch
  rw [hp]

/-- Claim C2 (amended): a failure raised while rendering the debug
overlay does prevent that image's JSON from being written and terminates
the whole batch (neither `visualize_walls` nor the batch loop has a
handler); rendering is the only unguarded stage --- whenever `cv2.line`
succeeds, `process_single_image` completes without raising, with read and
inference failures skipping the image and write failures only
suppressing that artifact. -/
theorem c2_render_failure_blocks_json_and_batch (thr : ℚ)
    (modelId outputDir debugDir : String) (env : ImgEnv) (rest : List ImgEnv)
    (img : Img) (preds : List Pred)
    (hread : env.readResult = some img)
    (hinf : env.inferResult = .ok preds)
    (hline : env.lineOk = false)
    (hwalls : extract_walls preds thr ≠ []) :
    runBatch thr modelId outputDir debugDir (env :: rest) = ([], some .cvError) ∧
    (∀ env₂ : ImgEnv, env₂.lineOk = true →
      ∃ effs, process_single_image thr modelId outputDir debugDir env₂ = .ok effs) := by
  constructor
  · have hp := process_single_image_render_fail thr modelId outputDir debugDir
      env img preds hread hinf hline hwalls
    unfold runBatch
    rw [hp]
  · intro env₂ hline₂
    exact process_single_image_render_ok thr modelId outputDir debugDir env₂ hline₂

/-- Witness for the amended Claim C2 at a concrete one-image batch. -/
theorem c2_render_failure_blocks_json_and_batch_witness :
    runBatch 0 "m" "out" "out/debug"
      [⟨"a.png", "a", some (.gray [[0]]), .ok [[("class", PyVal.str "wall")]], false, true, true⟩]
      = ([], some .cvError) ∧
    (∀ env₂ : ImgEnv, env₂.lineOk = true →
      ∃ effs, process_single_image 0 "m" "out" "out/debug" env₂ = .ok effs) :=
  c2_render_failure_blocks_json_and_batch 0 "m" "out" "out/debug"
    ⟨"a.png", "a", some (.gray [[0]]), .ok [[("class", PyVal.str "wall")]], false, true, true⟩
    [] (.gray [[0]]) [[("class", PyVal.str "wall")]] rfl rfl rfl
    (by rw [extract_walls_wall_defaults]; simp)
